import Mathlib

/-!
Verification of the `http-cache-semantics` cache-policy engine.

This development is a shallow embedding of the TypeScript implementation in
`src/src/index.ts` (the class `CachePolicy` together with its helper
functions).  JavaScript values are modelled as follows:

* header maps are association lists `List (String × String)`; a JS object
  lookup that yields `undefined` is `none`;
* parsed `Cache-Control` maps associate a directive name with either the
  boolean `true` (`CCVal.flag`) or a string value (`CCVal.val`);
* JS numbers that can be `NaN` are `Option ℚ` with `none` playing the role
  of `NaN`; comparisons against `NaN` are `false`, `Math.max` and arithmetic
  propagate `NaN`;
* `Date.now()` is an explicit `now : Int` argument (epoch milliseconds) and
  `Date.parse` is an explicit parameter `dp : String → Option Int`
  (`none` models `NaN`); concrete instantiations below list only literal
  date strings together with their actual ECMAScript parse results;
* truthiness of a string is non-emptiness, truthiness of `undefined` is
  false, exactly as in JS.

All string manipulation (the regex splits `\s*,\s*` and `\s*=\s*` with
limit 2, trimming, unquoting, the weak-validator prefix test) is
implemented over `List Char` so that every definition evaluates inside the
kernel.
-/

namespace CacheSem



/- Rational arithmetic must evaluate inside the kernel for the concrete
scenarios below; the Batteries definitions are irreducible by default. -/
attribute [local semireducible] Rat.add Rat.mul Rat.sub Rat.inv

/-- Value of one Cache-Control directive: the boolean `true` for a
name-only directive, or its (unquoted) string value. -/
inductive CCVal where
  | flag : CCVal
  | val : String → CCVal
deriving DecidableEq, Repr

/-- Response or request headers, as the JS code sees them: a string map
with lower-case keys.  `none` on lookup models `undefined`. -/
abbrev HeaderMap := List (String × String)

/-- Parsed Cache-Control header (the JS objects `rescc` / `reqcc`). -/
abbrev CacheControl := List (String × CCVal)

/-- Lookup of a header; the JS expression `headers[k]`. -/
def hGet (hs : HeaderMap) (k : String) : Option String :=
  (hs.find? (fun kv => kv.fst == k)).map (fun kv => kv.snd)

/-- Truthiness of `headers[k]` in JS: present and non-empty. -/
def hTruthy (hs : HeaderMap) (k : String) : Bool :=
  match hGet hs k with
  | some s => !s.isEmpty
  | none => false

/-- The JS assignment `headers[k] = v`: overwrite in place, or append. -/
def hSet (hs : HeaderMap) (k : String) (v : String) : HeaderMap :=
  if (hs.find? (fun kv => kv.fst == k)).isSome then
    hs.map (fun kv => if kv.fst == k then (k, v) else kv)
  else
    hs ++ [(k, v)]

/-- The JS statement `delete headers[k]`. -/
def hDel (hs : HeaderMap) (k : String) : HeaderMap :=
  hs.filter (fun kv => kv.fst != k)

/-- Lookup of a parsed directive; the JS expression `cc[k]`. -/
def ccGet (cc : CacheControl) (k : String) : Option CCVal :=
  (cc.find? (fun kv => kv.fst == k)).map (fun kv => kv.snd)

/-- The JS test `cc[k] != null`. -/
def ccHas (cc : CacheControl) (k : String) : Bool :=
  (ccGet cc k).isSome

/-- Truthiness of `cc[k]`: a flag is truthy, a string value is truthy iff
non-empty, absence is falsy. -/
def ccTruthy (cc : CacheControl) (k : String) : Bool :=
  match ccGet cc k with
  | some CCVal.flag => true
  | some (CCVal.val s) => !s.isEmpty
  | none => false

/-- The JS assignment `cc[k] = v`: overwrite in place, or append. -/
def ccSet (cc : CacheControl) (k : String) (v : CCVal) : CacheControl :=
  if (cc.find? (fun kv => kv.fst == k)).isSome then
    cc.map (fun kv => if kv.fst == k then (k, v) else kv)
  else
    cc ++ [(k, v)]

/-- The JS statement `delete cc[k]`. -/
def ccDel (cc : CacheControl) (k : String) : CacheControl :=
  cc.filter (fun kv => kv.fst != k)

/-- Truthiness of an optional string (a JS string-or-undefined value). -/
def sTruthy : Option String → Bool
  | none => false
  | some s => !s.isEmpty

/-- Splitting a character list at every occurrence of `sep`; the semantics
of the JS `String.prototype.split` with a single-character separator. -/
def splitCharList (sep : Char) : List Char → List (List Char)
  | [] => [[]]
  | c :: rest =>
    let r := splitCharList sep rest
    if c == sep then [] :: r
    else
      match r with
      | [] => [[c]]
      | h :: t => (c :: h) :: t

/-- Dropping whitespace at the front of a character list. -/
def trimLeftList (cs : List Char) : List Char :=
  cs.dropWhile Char.isWhitespace

/-- Dropping whitespace at both ends; the semantics of `String.trim`. -/
def trimList (cs : List Char) : List Char :=
  ((trimLeftList cs).reverse.dropWhile Char.isWhitespace).reverse

/-- The JS expression `s.trim()`. -/
def jsTrim (s : String) : String := ⟨trimList s.data⟩

/-- The JS regex split `s.split(/\s*,\s*/)` applied to an already trimmed
string: split on the separator and trim each piece (equivalent because the
greedy `\s*` on both sides of the separator consumes exactly the
whitespace adjacent to it, and the outer ends carry none). -/
def splitTrim (sep : Char) (s : String) : List String :=
  (splitCharList sep s.data).map (fun cs => ⟨trimList cs⟩)

/-- One layer of surrounding double quotes removed; the semantics of the
JS replacement `v.replace(/^"|"$/g, '')`. -/
def stripQuotes (s : String) : String :=
  let cs := s.data
  let cs1 := match cs with
    | '"' :: rest => rest
    | other => other
  let cs2 := match cs1.reverse with
    | '"' :: rest => rest.reverse
    | _ => cs1
  ⟨cs2⟩

/-- Decimal digits folded into a natural number. -/
def digitsToNat (ds : List Char) : Nat :=
  ds.foldl (fun a c => a * 10 + (c.toNat - 48)) 0

/-- The semantics of the JS call `parseInt(s, 10)`: skip leading
whitespace, read an optional sign and then a non-empty digit prefix;
`none` models the `NaN` result. -/
def jsParseInt (s : String) : Option Int :=
  let cs := trimLeftList s.data
  let signAndRest : Int × List Char :=
    match cs with
    | '-' :: rest => (-1, rest)
    | '+' :: rest => (1, rest)
    | rest => (1, rest)
  let ds := signAndRest.snd.takeWhile Char.isDigit
  if ds.isEmpty then none
  else some (signAndRest.fst * (digitsToNat ds : Int))

/-- The JS call `parseInt(cc[k], 10)` where the directive value may also
be the boolean `true` (which stringifies to `"true"` and parses to `NaN`)
or be absent (`undefined`, also `NaN`). -/
def jsParseIntCC : Option CCVal → Option Int
  | some (CCVal.val s) => jsParseInt s
  | some CCVal.flag => none
  | none => none

/-- The JS regex test `/no-cache/.test(s)`: substring containment. -/
def containsSeg (pat : List Char) : List Char → Bool
  | [] => pat.isEmpty
  | c :: rest => pat.isPrefixOf (c :: rest) || containsSeg pat rest

/-- The test `/no-cache/.test(s)` from the pragma handling. -/
def hasNoCacheToken (s : String) : Bool :=
  containsSeg "no-cache".data s.data

/-- The source's `isStronglyValidated`: an entity tag is strong when it
does not match `/^\s*W\//`. -/
def isStronglyValidated (etag : String) : Bool :=
  !("W/".data.isPrefixOf (trimLeftList etag.data))

/-- The source's helper removing the weak-validator marker: the JS
replacement `etag.replace(/^\s*W\//, '')`. -/
def stripWeakValidator (etag : String) : String :=
  if "W/".data.isPrefixOf (trimLeftList etag.data) then
    ⟨(trimLeftList etag.data).drop 2⟩
  else etag

/-- One comma-separated segment folded into the directive map: the body of
the loop in `parseCacheControl`, with the JS split
`part.split(/\s*=\s*/, 2)` (the limit 2 truncates, discarding everything
after the second separator). -/
def parseCCSegment (cc : CacheControl) (part : String) : CacheControl :=
  let fields := ((splitCharList '=' part.data).map (fun cs => (⟨trimList cs⟩ : String))).take 2
  match fields with
  | [k] => ccSet cc k CCVal.flag
  | [k, v] => ccSet cc k (CCVal.val (stripQuotes v))
  | _ => cc

/-- The source's `parseCacheControl`: `undefined` or empty input gives the
empty map, otherwise the trimmed input is split on `/\s*,\s*/` and each
segment parsed. -/
def parseCacheControl (header : Option String) : CacheControl :=
  match header with
  | none => []
  | some h =>
    if h.isEmpty then []
    else (splitTrim ',' (jsTrim h)).foldl parseCCSegment []

/-- The source's `formatCacheControl`; `none` models the `undefined`
returned for an empty map. -/
def formatCacheControl (cc : CacheControl) : Option String :=
  if cc.isEmpty then none
  else some (String.intercalate ", "
    (cc.map (fun kv =>
      match kv.snd with
      | CCVal.flag => kv.fst
      | CCVal.val v => kv.fst ++ "=" ++ v)))

/-- A request as the constructor sees it: method and url may be absent
(JS `undefined`); the headers object is present (the throwing
`assertRequestHasHeaders` path is not modelled — every embedded request
carries a header map). -/
structure HttpRequest where
  method : Option String
  url : Option String
  headers : HeaderMap
deriving DecidableEq, Repr

/-- A response as the constructor sees it. -/
structure HttpResponse where
  status : Option Int
  headers : HeaderMap
deriving DecidableEq, Repr

/-- The options object of the `CachePolicy` constructor; `none` models an
omitted option. -/
structure CacheOptions where
  shared : Option Bool := none
  cacheHeuristic : Option ℚ := none
  immutableMinTimeToLive : Option ℚ := none
  ignoreCargoCult : Bool := false
  trustServerDate : Option Bool := none
deriving DecidableEq, Repr

/-- The options object `{}`. -/
def defaultCacheOptions : CacheOptions := {}

/-- The fields of a constructed `CachePolicy`.  `trustServerDate` is the
private field of the class; it is not serialized by `toObject`. -/
structure CachePolicy where
  cacheHeuristic : ℚ
  host : Option String
  immutableMinTtl : ℚ
  isShared : Bool
  method : String
  noAuthorization : Bool
  reqHeaders : Option HeaderMap
  reqcc : CacheControl
  resHeaders : HeaderMap
  rescc : CacheControl
  responseTime : Int
  status : Int
  url : Option String
  trustServerDate : Bool
deriving DecidableEq, Repr

/-- The serialized form produced by `toObject` (the `ICachePolicyObject`
shape).  A JSON round-trip of this object is the identity on this model:
every field is a string, number, boolean, header map or directive map, and
absent optional fields round-trip to absent. -/
structure SerializedPolicy where
  v : Int
  a : Bool
  ch : ℚ
  h : Option String
  imm : Option ℚ
  m : String
  reqcc : CacheControl
  reqh : Option HeaderMap
  rescc : CacheControl
  resh : HeaderMap
  sh : Bool
  st : Int
  t : Int
  u : Option String
deriving DecidableEq, Repr

/-- The `understoodStatuses` list of the source. -/
def understoodStatuses : List Int :=
  [200, 203, 204, 300, 301, 302, 303, 307, 308, 404, 405, 410, 414, 501]

/-- The `defaultCacheableStatusCodes` list of the source. -/
def defaultCacheableStatusCodes : List Int :=
  [200, 203, 204, 206, 300, 301, 404, 405, 410, 414, 501]

/-- The `defaultImmutableMinTtl` constant (24 hours in milliseconds). -/
def defaultImmutableMinTtl : ℚ := 24 * 60 * 60 * 1000

/-- The `excludedFromRevalidationUpdate` set of the source. -/
def excludedFromRevalidationUpdate : List String :=
  ["content-encoding", "content-length", "content-range", "transfer-encoding"]

/-- The cargo-cult guard of the constructor: `ignoreCargoCult` was passed
and the response carries both `pre-check` and `post-check`. -/
def cargoActive (res : HttpResponse) (opts : CacheOptions) : Bool :=
  opts.ignoreCargoCult &&
    ccHas (parseCacheControl (hGet res.headers "cache-control")) "pre-check" &&
    ccHas (parseCacheControl (hGet res.headers "cache-control")) "post-check"

/-- The response directive map after the constructor body: cargo-cult
stripping, then the `Pragma: no-cache` fallback (which tests the original
response headers). -/
def effRescc (res : HttpResponse) (opts : CacheOptions) : CacheControl :=
  let rescc0 := parseCacheControl (hGet res.headers "cache-control")
  let rescc1 :=
    if cargoActive res opts then
      ccDel (ccDel (ccDel (ccDel (ccDel rescc0 "pre-check") "post-check")
        "no-cache") "no-store") "must-revalidate"
    else rescc0
  if hGet res.headers "cache-control" == none &&
      (hGet res.headers "pragma").isSome &&
      hasNoCacheToken ((hGet res.headers "pragma").getD "") then
    ccSet rescc1 "no-cache" CCVal.flag
  else rescc1

/-- The stored response headers after the constructor body.  In the
cargo-cult branch the reformatted `cache-control` replaces the old one
(an empty map formats to JS `undefined`, which every later lookup treats
as an absent header, modelled by deletion) and `expires` and `pragma` are
dropped. -/
def effResHeaders (res : HttpResponse) (opts : CacheOptions) : HeaderMap :=
  if cargoActive res opts then
    let rescc1 :=
      ccDel (ccDel (ccDel (ccDel (ccDel
        (parseCacheControl (hGet res.headers "cache-control")) "pre-check")
        "post-check") "no-cache") "no-store") "must-revalidate"
    let h1 :=
      match formatCacheControl rescc1 with
      | some v => hSet res.headers "cache-control" v
      | none => hDel res.headers "cache-control"
    hDel (hDel h1 "expires") "pragma"
  else res.headers

/-- The `CachePolicy` constructor.  `now` is the value of `Date.now()` at
construction time (the field `responseTime`). -/
def mkCachePolicy (req : HttpRequest) (res : HttpResponse)
    (opts : CacheOptions) (now : Int) : CachePolicy :=
  { responseTime := now
    isShared := !(opts.shared == some false)
    trustServerDate := opts.trustServerDate.getD true
    cacheHeuristic := opts.cacheHeuristic.getD (1 / 10)
    immutableMinTtl := opts.immutableMinTimeToLive.getD defaultImmutableMinTtl
    status := res.status.getD 200
    resHeaders := effResHeaders res opts
    rescc := effRescc res opts
    method := req.method.getD "GET"
    url := req.url
    host := hGet req.headers "host"
    noAuthorization := !(hTruthy req.headers "authorization")
    reqHeaders := if hTruthy res.headers "vary" then some req.headers else none
    reqcc := parseCacheControl (hGet req.headers "cache-control") }

/-- The private method `hasExplicitExpiration` (used as a boolean). -/
def hasExplicitExpiration (p : CachePolicy) : Bool :=
  (p.isShared && ccTruthy p.rescc "s-maxage") ||
  ccTruthy p.rescc "max-age" ||
  hTruthy p.resHeaders "expires"

/-- The private method `allowsStoringAuthenticated`. -/
def allowsStoringAuthenticated (p : CachePolicy) : Bool :=
  ccTruthy p.rescc "must-revalidate" ||
  ccTruthy p.rescc "public" ||
  ccTruthy p.rescc "s-maxage"

/-- The public method `storable`. -/
def storable (p : CachePolicy) : Bool :=
  !(ccTruthy p.reqcc "no-store") &&
  (p.method == "GET" || p.method == "HEAD" ||
    (p.method == "POST" && hasExplicitExpiration p)) &&
  understoodStatuses.contains p.status &&
  !(ccTruthy p.rescc "no-store") &&
  (!p.isShared || !(ccTruthy p.rescc "private")) &&
  (!p.isShared || p.noAuthorization || allowsStoringAuthenticated p) &&
  (hTruthy p.resHeaders "expires" ||
    ccTruthy p.rescc "public" ||
    ccTruthy p.rescc "max-age" ||
    ccTruthy p.rescc "s-maxage" ||
    defaultCacheableStatusCodes.contains p.status)

/-- The private method `serverDate`: the parsed `Date` header when it is
valid and within 8 hours of `responseTime`, else `responseTime`.
`Date.parse` of an absent header is `NaN`. -/
def serverDate (p : CachePolicy) (dp : String → Option Int) : Int :=
  match hGet p.resHeaders "date" with
  | none => p.responseTime
  | some s =>
    match dp s with
    | none => p.responseTime
    | some dateValue =>
      if (p.responseTime - dateValue).natAbs < 8 * 3600 * 1000 then dateValue
      else p.responseTime

/-- The public method `date`. -/
def date (p : CachePolicy) (dp : String → Option Int) : Int :=
  if p.trustServerDate then serverDate p dp else p.responseTime

/-- The private method `ageValue`: `parseInt` of the `Age` header, with
0 for a non-finite parse. -/
def ageValue (p : CachePolicy) : ℚ :=
  match hGet p.resHeaders "age" with
  | some s =>
    match jsParseInt s with
    | some n => (n : ℚ)
    | none => 0
  | none => 0

/-- The public method `age` in seconds, at the current time `now`. -/
def age (p : CachePolicy) (dp : String → Option Int) (now : Int) : ℚ :=
  let base : ℚ := max 0 (((p.responseTime - date p dp : Int) : ℚ) / 1000)
  let withHeader := if hTruthy p.resHeaders "age" then
      (if base < ageValue p then ageValue p else base)
    else base
  withHeader + ((now - p.responseTime : Int) : ℚ) / 1000

/-- The public method `maxAge` in seconds.  The result is `Option ℚ`
because `parseInt` of a malformed `s-maxage` or `max-age` value is
returned as-is, so the JS function can return `NaN` (modelled `none`). -/
def maxAge (p : CachePolicy) (dp : String → Option Int) : Option ℚ :=
  if !(storable p) || ccTruthy p.rescc "no-cache" then some 0
  else if p.isShared && hTruthy p.resHeaders "set-cookie" &&
      !(ccTruthy p.rescc "public") && !(ccTruthy p.rescc "immutable") then some 0
  else if hGet p.resHeaders "vary" == some "*" then some 0
  else if p.isShared && ccTruthy p.rescc "proxy-revalidate" then some 0
  else if p.isShared && ccTruthy p.rescc "s-maxage" then
    (jsParseIntCC (ccGet p.rescc "s-maxage")).map (fun n => (n : ℚ))
  else if ccTruthy p.rescc "max-age" then
    (jsParseIntCC (ccGet p.rescc "max-age")).map (fun n => (n : ℚ))
  else
    let defaultMinTtl : ℚ := if ccTruthy p.rescc "immutable" then p.immutableMinTtl else 0
    let dateValue := serverDate p dp
    if hTruthy p.resHeaders "expires" then
      match dp ((hGet p.resHeaders "expires").getD "") with
      | none => some 0
      | some expires =>
        if expires < dateValue then some 0
        else some (max defaultMinTtl (((expires - dateValue : Int) : ℚ) / 1000))
    else if (hGet p.resHeaders "last-modified").isSome then
      match dp ((hGet p.resHeaders "last-modified").getD "") with
      | some lastModified =>
        if dateValue > lastModified then
          some (max defaultMinTtl
            ((((dateValue - lastModified : Int) : ℚ) / 1000) * p.cacheHeuristic))
        else some defaultMinTtl
      | none => some defaultMinTtl
    else some defaultMinTtl

/-- The public method `timeToLive` in milliseconds:
`Math.max(0, maxAge − age) * 1000`, with `NaN` (`none`) propagated. -/
def timeToLive (p : CachePolicy) (dp : String → Option Int) (now : Int) : Option ℚ :=
  (maxAge p dp).map (fun m => max 0 (m - age p dp now) * 1000)

/-- The public method `stale`: `maxAge() <= age()`, false when `maxAge`
is `NaN`. -/
def stale (p : CachePolicy) (dp : String → Option Int) (now : Int) : Bool :=
  match maxAge p dp with
  | some m => decide (m ≤ age p dp now)
  | none => false

/-- The private method `varyMatches`. -/
def varyMatches (p : CachePolicy) (req : HttpRequest) : Bool :=
  if !(hTruthy p.resHeaders "vary") || p.reqHeaders == none then true
  else if hGet p.resHeaders "vary" == some "*" then false
  else
    let fields := splitTrim ',' (((jsTrim ((hGet p.resHeaders "vary").getD "")).toLower))
    fields.all (fun name =>
      hGet req.headers name == hGet (p.reqHeaders.getD []) name)

/-- The private method `requestMatches`.  JS string truthiness makes an
empty stored url or an empty incoming method behave like an absent one. -/
def requestMatches (p : CachePolicy) (req : HttpRequest) (allowHeadMethod : Bool) : Bool :=
  (!(sTruthy p.url) || p.url == req.url) &&
  (p.host == hGet req.headers "host") &&
  (!(sTruthy req.method) || p.method == req.method.getD "" ||
    (allowHeadMethod && req.method == some "HEAD")) &&
  varyMatches p req

/-- The `Pragma: no-cache` test of `satisfiesWithoutRevalidation`:
`reqHeaders.pragma != null && /no-cache/.test(reqHeaders.pragma)`. -/
def pragmaNoCache (hs : HeaderMap) : Bool :=
  match hGet hs "pragma" with
  | some s => hasNoCacheToken s
  | none => false

/-- The `allowsStale` local of `satisfiesWithoutRevalidation`: the request
carries `max-stale`, the response lacks `must-revalidate`, and the
directive is the boolean `true` or parses to a number exceeding
`age() − maxAge()` (comparisons against `NaN` are false). -/
def allowsStale (p : CachePolicy) (requestCC : CacheControl)
    (dp : String → Option Int) (now : Int) : Bool :=
  ccTruthy requestCC "max-stale" &&
  !(ccTruthy p.rescc "must-revalidate") &&
  (ccGet requestCC "max-stale" == some CCVal.flag ||
    (match jsParseIntCC (ccGet requestCC "max-stale"), maxAge p dp with
     | some n, some m => decide (age p dp now - m < (n : ℚ))
     | _, _ => false))

/-- The request `max-age` early exit of `satisfiesWithoutRevalidation`:
`requestCC['max-age'] && this.age() > parseInt(requestCC['max-age'], 10)`. -/
def reqMaxAgeExceeded (p : CachePolicy) (requestCC : CacheControl)
    (dp : String → Option Int) (now : Int) : Bool :=
  ccTruthy requestCC "max-age" &&
  (match jsParseIntCC (ccGet requestCC "max-age") with
   | some n => decide ((n : ℚ) < age p dp now)
   | none => false)

/-- The request `min-fresh` early exit of `satisfiesWithoutRevalidation`:
`requestCC['min-fresh'] && this.timeToLive() < 1000 * parseInt(...)`. -/
def reqMinFreshBlocks (p : CachePolicy) (requestCC : CacheControl)
    (dp : String → Option Int) (now : Int) : Bool :=
  ccTruthy requestCC "min-fresh" &&
  (match timeToLive p dp now, jsParseIntCC (ccGet requestCC "min-fresh") with
   | some t, some n => decide (t < 1000 * (n : ℚ))
   | _, _ => false)

/-- The public method `satisfiesWithoutRevalidation`. -/
def satisfiesWithoutRevalidation (p : CachePolicy) (req : HttpRequest)
    (dp : String → Option Int) (now : Int) : Bool :=
  let requestCC := parseCacheControl (hGet req.headers "cache-control")
  if ccHas requestCC "no-cache" || pragmaNoCache req.headers then false
  else if reqMaxAgeExceeded p requestCC dp now then false
  else if reqMinFreshBlocks p requestCC dp now then false
  else if stale p dp now then
    (if allowsStale p requestCC dp now then requestMatches p req false else false)
  else requestMatches p req false

/-- The public method `toObject`. -/
def toObject (p : CachePolicy) : SerializedPolicy :=
  { v := 1
    a := p.noAuthorization
    ch := p.cacheHeuristic
    h := p.host
    imm := some p.immutableMinTtl
    m := p.method
    reqcc := p.reqcc
    reqh := p.reqHeaders
    rescc := p.rescc
    resh := p.resHeaders
    sh := p.isShared
    st := p.status
    t := p.responseTime
    u := p.url }

/-- The static method `fromObject`.  The restored object has no
`trustServerDate` field (it is not part of the serialized form); reading
the absent field in JS yields `undefined`, which is falsy, so the model
restores it as `false`. -/
def fromObject (obj : SerializedPolicy) : Except String CachePolicy :=
  if obj.v != 1 then Except.error "Invalid serialization"
  else Except.ok
    { cacheHeuristic := obj.ch
      host := obj.h
      immutableMinTtl := obj.imm.getD defaultImmutableMinTtl
      isShared := obj.sh
      method := obj.m
      noAuthorization := obj.a
      reqHeaders := obj.reqh
      reqcc := obj.reqcc
      resHeaders := obj.resh
      rescc := obj.rescc
      responseTime := obj.t
      status := obj.st
      url := obj.u
      trustServerDate := false }

/-- The validator-matching cascade of `revalidatedPolicy`. -/
def revalMatches (p : CachePolicy) (response : HttpResponse) : Bool :=
  if response.status.isSome && !(response.status == some 304) then false
  else if sTruthy (hGet response.headers "etag") &&
      isStronglyValidated ((hGet response.headers "etag").getD "") then
    sTruthy (hGet p.resHeaders "etag") &&
      (stripWeakValidator ((hGet p.resHeaders "etag").getD "") ==
        (hGet response.headers "etag").getD "")
  else if sTruthy (hGet p.resHeaders "etag") &&
      sTruthy (hGet response.headers "etag") then
    stripWeakValidator ((hGet p.resHeaders "etag").getD "") ==
      stripWeakValidator ((hGet response.headers "etag").getD "")
  else if sTruthy (hGet p.resHeaders "last-modified") then
    hGet p.resHeaders "last-modified" == hGet response.headers "last-modified"
  else
    !(sTruthy (hGet p.resHeaders "etag")) &&
    !(sTruthy (hGet p.resHeaders "last-modified")) &&
    !(sTruthy (hGet response.headers "etag")) &&
    !(sTruthy (hGet response.headers "last-modified"))

/-- The merged headers built on a successful revalidation: for every
header of the stored response, the new response's value unless the name
is excluded or the new response lacks the header. -/
def mergedRevalHeaders (p : CachePolicy) (response : HttpResponse) : HeaderMap :=
  p.resHeaders.map (fun kv =>
    (kv.fst,
      match hGet response.headers kv.fst with
      | some v =>
        if excludedFromRevalidationUpdate.contains kv.fst then kv.snd else v
      | none => kv.snd))

/-- The result record of `revalidatedPolicy`; `matched` embeds the JS
field `matches` (a Lean keyword). -/
structure RevalidationResult where
  matched : Bool
  modified : Bool
  policy : CachePolicy
deriving DecidableEq, Repr

/-- The public method `revalidatedPolicy`.  An absent response (or one
without a headers object, which the embedding cannot express) raises
`Response headers missing`.  `now` is `Date.now()` when the returned
policy is constructed. -/
def revalidatedPolicy (p : CachePolicy) (request : HttpRequest)
    (response? : Option HttpResponse) (now : Int) :
    Except String RevalidationResult :=
  match response? with
  | none => Except.error "Response headers missing"
  | some response =>
    if revalMatches p response then
      let newResponse : HttpResponse :=
        { status := some p.status, headers := mergedRevalHeaders p response }
      Except.ok
        { matched := true
          modified := false
          policy := mkCachePolicy request newResponse
            { shared := some p.isShared
              cacheHeuristic := some p.cacheHeuristic
              immutableMinTimeToLive := some p.immutableMinTtl
              ignoreCargoCult := false
              trustServerDate := some p.trustServerDate } now }
    else
      Except.ok
        { matched := false
          modified := !(response.status == some 304)
          policy := mkCachePolicy request response defaultCacheOptions now }

/-- A date parser for concrete evaluations: the graph of the ECMAScript
`Date.parse` restricted to the literal strings used below (each value is
the actual epoch-millisecond parse of the string). -/
def dateParseFix (s : String) : Option Int :=
  if s == "Thu, 01 Jan 1970 00:00:00 GMT" then some 0
  else if s == "Wed, 31 Dec 1969 23:59:40 GMT" then some (-20000)
  else if s == "Thu, 01 Jan 1970 00:00:02 GMT" then some 2000
  else none

/-- The request `{method: GET, headers: {}}` used throughout the tests. -/
def simpleGetRequest : HttpRequest :=
  { method := some "GET", url := none, headers := [] }

/-- C1 counterexample policy: a non-shared cache, a GET response with
status 302 (understood but not default-cacheable) whose only directive is
`s-maxage=10`. -/
def policyC1 : CachePolicy :=
  mkCachePolicy simpleGetRequest
    { status := some 302, headers := [("cache-control", "s-maxage=10")] }
    { defaultCacheOptions with shared := some false } 0

/-- Rounding as in the JS `Math.round`: half-up, ties toward positive
infinity (the floor of `q + 1/2`). -/
def jsRound (q : ℚ) : Int :=
  (q + 1 / 2).num.ediv ((q + 1 / 2).den : Int)

/-- The timeToLive value asserted by claim C2, written from the claim's
words: `round(max(0, maxAge−age, maxAge−age+staleIfError,
maxAge−age+staleWhileRevalidate) * 1000)` where the stale directives'
values parse from the response Cache-Control (0 when absent). -/
def claimedTimeToLiveC2 (p : CachePolicy) (dp : String → Option Int) (now : Int) : Int :=
  let m : ℚ := (maxAge p dp).getD 0
  let a : ℚ := age p dp now
  let sie : ℚ :=
    match jsParseIntCC (ccGet p.rescc "stale-if-error") with
    | some n => (n : ℚ)
    | none => 0
  let swr : ℚ :=
    match jsParseIntCC (ccGet p.rescc "stale-while-revalidate") with
    | some n => (n : ℚ)
    | none => 0
  jsRound (max (max 0 (m - a)) (max (m - a + sie) (m - a + swr)) * 1000)

/-- C2 counterexample policy: fresh response with `max-age=10`,
`stale-while-revalidate=60` and `stale-if-error=300`, evaluated at age 0. -/
def policyC2 : CachePolicy :=
  mkCachePolicy simpleGetRequest
    { status := none,
      headers := [("cache-control",
        "max-age=10, stale-while-revalidate=60, stale-if-error=300")] }
    defaultCacheOptions 0

/-- The amended timeToLive formula: `max(0, maxAge() − age()) * 1000`
milliseconds, with no rounding and no stale-serving grace periods; a `NaN`
maxAge propagates. -/
def specTimeToLiveAmended (p : CachePolicy) (dp : String → Option Int) (now : Int) :
    Option ℚ :=
  match maxAge p dp with
  | none => none
  | some m => some (max 0 (m - age p dp now) * 1000)

/-- The directive-name selection of the amended claim C8: the trimmed text
before the first `=` of a segment. -/
def specSegName (seg : List Char) : String :=
  ⟨trimList (seg.takeWhile (fun c => !(c == '=')))⟩

/-- The directive-value selection of the amended claim C8: `none` for a
segment without `=`, else the trimmed text strictly between the first and
the second `=` (anything from a second `=` on is discarded), with one
layer of surrounding double quotes stripped. -/
def specSegVal (seg : List Char) : Option String :=
  match seg.dropWhile (fun c => !(c == '=')) with
  | [] => none
  | _ :: rest => some (stripQuotes ⟨trimList (rest.takeWhile (fun c => !(c == '=')))⟩)

/-- Cache-Control parsing as the amended claim C8 describes it. -/
def specParseCacheControl (header : Option String) : CacheControl :=
  match header with
  | none => []
  | some h =>
    if h.isEmpty then []
    else
      (splitTrim ',' (jsTrim h)).foldl
        (fun cc part =>
          match specSegVal part.data with
          | none => ccSet cc (specSegName part.data) CCVal.flag
          | some v => ccSet cc (specSegName part.data) (CCVal.val v)) []

/-- C10 witness policy: responseTime 0 with a Date header 20 seconds in
the past (well inside the 8-hour drift bound). -/
def policyC10 : CachePolicy :=
  mkCachePolicy simpleGetRequest
    { status := none,
      headers := [("date", "Wed, 31 Dec 1969 23:59:40 GMT"),
                  ("cache-control", "max-age=10")] }
    defaultCacheOptions 0

/-- C9 witness policy: constructed with the default `trustServerDate`
(true) and a trusted Date header, so `date()` differs from
`responseTime` before serialization. -/
def policyC9 : CachePolicy :=
  mkCachePolicy simpleGetRequest
    { status := none,
      headers := [("date", "Wed, 31 Dec 1969 23:59:40 GMT"),
                  ("cache-control", "max-age=10")] }
    defaultCacheOptions 0

/-- The policy produced by a `toObject`/`fromObject` round trip: identical
fields except that the unserialized `trustServerDate` reads back falsy. -/
def restoredPolicy (p : CachePolicy) : CachePolicy :=
  { p with trustServerDate := false }

/-- C4 witness policy: no Date header, so `date()` equals `responseTime`
and the round trip preserves `stale()` too. -/
def policyC4w : CachePolicy :=
  mkCachePolicy simpleGetRequest
    { status := none, headers := [("cache-control", "max-age=100")] }
    defaultCacheOptions 0

/-- C4 counterexample policy: default options trust the server date; the
Date header is 20 seconds before responseTime, so the original policy is
stale at max-age=10 while the restored one (age 0) is fresh. -/
def policyC4 : CachePolicy :=
  mkCachePolicy simpleGetRequest
    { status := none,
      headers := [("date", "Wed, 31 Dec 1969 23:59:40 GMT"),
                  ("cache-control", "max-age=10")] }
    defaultCacheOptions 0

/-- C3 counterexample policy: well inside a `stale-if-error=600` window
(age 0, max-age 100). -/
def policyC3 : CachePolicy :=
  mkCachePolicy simpleGetRequest
    { status := none,
      headers := [("cache-control", "max-age=100, stale-if-error=600")] }
    defaultCacheOptions 0

/-- A bodiless 500 revalidation response. -/
def responseC3 : HttpResponse := { status := some 500, headers := [] }

/-- C7 witness policy: stored response with strong ETag and a
Content-Length of 100. -/
def policyC7 : CachePolicy :=
  mkCachePolicy simpleGetRequest
    { status := none,
      headers := [("etag", "\"v1\""), ("content-length", "100"),
                  ("cache-control", "max-age=10")] }
    defaultCacheOptions 0

/-- The 304 revalidation response for the C7 witness: same strong ETag,
no Content-Length. -/
def responseC7 : HttpResponse :=
  { status := some 304, headers := [("etag", "\"v1\"")] }

/-- C5 witness response: `Vary: *` with an otherwise fresh max-age. -/
def responseC5 : HttpResponse :=
  { status := none,
    headers := [("vary", "*"), ("cache-control", "max-age=100")] }

/-- C5 witness request: same method, same headers, even `max-stale`. -/
def requestC5 : HttpRequest :=
  { method := some "GET", url := none,
    headers := [("cache-control", "max-stale")] }

/-- C6 scenario policy: stored response `max-age=120` with `Age: 360`,
private cache. -/
def policyC6 : CachePolicy :=
  mkCachePolicy simpleGetRequest
    { status := none,
      headers := [("cache-control", "max-age=120"), ("age", "360")] }
    { defaultCacheOptions with shared := some false } 0

/-- C6 scenario policy with `must-revalidate` added to the response. -/
def policyC6mr : CachePolicy :=
  mkCachePolicy simpleGetRequest
    { status := none,
      headers := [("cache-control", "max-age=120, must-revalidate"), ("age", "360")] }
    { defaultCacheOptions with shared := some false } 0

/-- The scenario request carrying `max-stale=180`. -/
def requestMaxStale180 : HttpRequest :=
  { method := some "GET", url := none,
    headers := [("cache-control", "max-stale=180")] }

/-- The scenario request carrying `max-stale=241`. -/
def requestMaxStale241 : HttpRequest :=
  { method := some "GET", url := none,
    headers := [("cache-control", "max-stale=241")] }

example : parseCacheControl (some "public, max-age=999999") =
    [("public", CCVal.flag), ("max-age", CCVal.val "999999")] := by rfl

example : parseCacheControl (some ",,,,max-age =  456      ,") =
    [("", CCVal.flag), ("max-age", CCVal.val "456")] := by rfl

example : parseCacheControl (some "  max-age = \"678\"      ") =
    [("max-age", CCVal.val "678")] := by rfl

example : parseCacheControl (some "a=b=c") = [("a", CCVal.val "b")] := by rfl

example :
    let p := mkCachePolicy simpleGetRequest
      { status := none, headers := [("cache-control", "public, max-age=999999")] }
      defaultCacheOptions 0
    stale p dateParseFix 0 = false ∧ maxAge p dateParseFix = some 999999 := by
  decide

example :
    let p := mkCachePolicy simpleGetRequest
      { status := none, headers := [("cache-control", ",,,,max-age =  456      ,")] }
      defaultCacheOptions 0
    stale p dateParseFix 0 = false ∧ maxAge p dateParseFix = some 456 := by
  decide

example :
    let p := mkCachePolicy simpleGetRequest
      { status := none, headers := [("age", "50"), ("cache-control", "max-age=100")] }
      defaultCacheOptions 1000
    timeToLive p dateParseFix 1000 = some 50000 ∧
      stale p dateParseFix 1000 = false ∧
      timeToLive p dateParseFix 49000 = some 2000 ∧
      stale p dateParseFix 54000 = true ∧
      timeToLive p dateParseFix 54000 = some 0 := by
  decide

example :
    let p := mkCachePolicy simpleGetRequest
      { status := none, headers := [("cache-control", "private, max-age=1234")] }
      defaultCacheOptions 0
    let q := mkCachePolicy simpleGetRequest
      { status := none, headers := [("cache-control", "private, max-age=1234")] }
      { defaultCacheOptions with shared := some false } 0
    maxAge p dateParseFix = some 0 ∧ maxAge q dateParseFix = some 1234 := by
  decide

example :
    let p := mkCachePolicy simpleGetRequest
      { status := none,
        headers := [("date", "Thu, 01 Jan 1970 00:00:00 GMT"),
                    ("expires", "Thu, 01 Jan 1970 00:00:02 GMT")] }
      defaultCacheOptions 0
    stale p dateParseFix 0 = false ∧ maxAge p dateParseFix = some 2 := by
  decide

example :
    let p := mkCachePolicy simpleGetRequest
      { status := some 503, headers := [("cache-control", "public, max-age=1000")] }
      defaultCacheOptions 0
    stale p dateParseFix 0 = true ∧ maxAge p dateParseFix = some 0 := by
  decide

/-! Helper lemmas about association-list lookups. -/

theorem find?_map_keyed (l : HeaderMap) (f : String × String → String) (k : String) :
    (l.map (fun kv => (kv.fst, f kv))).find? (fun kv => kv.fst == k) =
      (l.find? (fun kv => kv.fst == k)).map (fun kv => (kv.fst, f kv)) := by
  induction l with
  | nil => rfl
  | cons hd tl ih =>
    by_cases h : hd.fst == k
    · simp [List.find?_cons, h]
    · simp [List.find?_cons, h, ih]

theorem find?_map_overwrite (l : HeaderMap) (k k' : String) (v : String)
    (h : (k' == k) = false) :
    (l.map (fun kv => if kv.fst == k' then (k', v) else kv)).find? (fun kv => kv.fst == k) =
      l.find? (fun kv => kv.fst == k) := by
  induction l with
  | nil => rfl
  | cons hd tl ih =>
    rw [List.map_cons]
    by_cases h1 : (hd.fst == k') = true
    · have hk : (hd.fst == k) = false := by rw [beq_iff_eq.mp h1]; exact h
      simp_all [List.find?_cons]
    · by_cases h2 : (hd.fst == k) = true
      · simp_all [List.find?_cons]
      · simp_all [List.find?_cons]

theorem hGet_hSet_ne (hs : HeaderMap) (k k' v : String) (h : (k' == k) = false) :
    hGet (hSet hs k' v) k = hGet hs k := by
  unfold hSet
  split
  · unfold hGet
    rw [find?_map_overwrite hs k k' v h]
  · unfold hGet
    rw [List.find?_append]
    cases hf : hs.find? (fun kv => kv.fst == k) with
    | some kv => rfl
    | none => simp only [List.find?_cons, List.find?_nil, h, Option.or_none, Option.none_or]

theorem hGet_hDel_ne (hs : HeaderMap) (k k' : String) (h : (k' == k) = false) :
    hGet (hDel hs k') k = hGet hs k := by
  unfold hDel hGet
  induction hs with
  | nil => rfl
  | cons hd tl ih =>
    cases h1 : (hd.fst == k') with
    | true =>
      have hk : (hd.fst == k) = false := by rw [beq_iff_eq.mp h1]; exact h
      simpa [List.filter_cons, bne, h1, List.find?_cons, hk] using ih
    | false =>
      cases h2 : (hd.fst == k) with
      | true =>
        simp [List.filter_cons, bne, h1, List.find?_cons, h2]
      | false =>
        simpa [List.filter_cons, bne, h1, List.find?_cons, h2] using ih

/-- C1 counterexample: this policy is storable although it has none of the
cacheability signals the claim lists (no Expires, no max-age, no public,
status not default-cacheable, and s-maxage does not count under the claim
because the cache is not shared).  The claim's if-and-only-if is therefore
false at this input: the code accepts `s-maxage` as a signal regardless of
whether the cache is shared. -/
theorem storable_claim_counterexample :
    storable policyC1 = true ∧
    policyC1.isShared = false ∧
    ccGet policyC1.rescc "s-maxage" = some (CCVal.val "10") ∧
    ¬(hTruthy policyC1.resHeaders "expires" = true ∨
      ccTruthy policyC1.rescc "max-age" = true ∨
      (policyC1.isShared = true ∧ ccTruthy policyC1.rescc "s-maxage" = true) ∨
      ccTruthy policyC1.rescc "public" = true ∨
      defaultCacheableStatusCodes.contains policyC1.status = true) := by
  decide

/-- The final disjunct of `storable` with its cacheability signals listed
in the claim's order (pure Boolean reordering). -/
theorem storable_eq_reordered (p : CachePolicy) :
    storable p =
      (!(ccTruthy p.reqcc "no-store") &&
       (p.method == "GET" || p.method == "HEAD" ||
         (p.method == "POST" && hasExplicitExpiration p)) &&
       understoodStatuses.contains p.status &&
       !(ccTruthy p.rescc "no-store") &&
       (!p.isShared || !(ccTruthy p.rescc "private")) &&
       (!p.isShared || p.noAuthorization || allowsStoringAuthenticated p) &&
       (hTruthy p.resHeaders "expires" ||
         ccTruthy p.rescc "max-age" ||
         ccTruthy p.rescc "s-maxage" ||
         ccTruthy p.rescc "public" ||
         defaultCacheableStatusCodes.contains p.status)) := by
  unfold storable
  cases h1 : ccTruthy p.rescc "public" <;>
    cases h2 : ccTruthy p.rescc "max-age" <;>
      cases h3 : ccTruthy p.rescc "s-maxage" <;>
        simp [h1, h2, h3]

/-- C1 (amended): `storable()` returns true iff all of the following hold:
the request Cache-Control lacks `no-store`; the method is GET or HEAD, or
is POST with an explicit expiration (`s-maxage` under a shared cache, or
`max-age`, or `Expires`); the response status is in the understood set;
the response Cache-Control lacks `no-store`; the cache is not shared or
the response lacks `private`; the cache is not shared, or the request
lacked `Authorization`, or the response carries `must-revalidate`,
`public` or `s-maxage`; and the response has some cacheability signal: an
`Expires` header, `max-age`, `s-maxage` (regardless of shared), `public`,
or a default-cacheable status. -/
theorem storable_characterization (p : CachePolicy) :
    storable p = true ↔
      (ccTruthy p.reqcc "no-store" = false ∧
       (p.method = "GET" ∨ p.method = "HEAD" ∨
         (p.method = "POST" ∧
           ((p.isShared = true ∧ ccTruthy p.rescc "s-maxage" = true) ∨
            ccTruthy p.rescc "max-age" = true ∨
            hTruthy p.resHeaders "expires" = true))) ∧
       understoodStatuses.contains p.status = true ∧
       ccTruthy p.rescc "no-store" = false ∧
       (p.isShared = false ∨ ccTruthy p.rescc "private" = false) ∧
       (p.isShared = false ∨ p.noAuthorization = true ∨
         ccTruthy p.rescc "must-revalidate" = true ∨
         ccTruthy p.rescc "public" = true ∨
         ccTruthy p.rescc "s-maxage" = true) ∧
       (hTruthy p.resHeaders "expires" = true ∨
         ccTruthy p.rescc "max-age" = true ∨
         ccTruthy p.rescc "s-maxage" = true ∨
         ccTruthy p.rescc "public" = true ∨
         defaultCacheableStatusCodes.contains p.status = true)) := by
  rw [storable_eq_reordered]
  simp only [hasExplicitExpiration, allowsStoringAuthenticated,
    Bool.and_eq_true, Bool.or_eq_true, Bool.not_eq_true', beq_iff_eq,
    and_assoc, or_assoc]

/-- C2 counterexample: the code returns 10000 ms (max-age minus age, times
1000) while the claim's formula, which adds the stale-serving grace
periods, yields 310000 ms — `timeToLive` ignores `stale-if-error` and
`stale-while-revalidate` entirely. -/
theorem timeToLive_claim_counterexample :
    timeToLive policyC2 dateParseFix 0 = some 10000 ∧
    claimedTimeToLiveC2 policyC2 dateParseFix 0 = 310000 := by
  decide

/-- C2 (amended): for every policy and every evaluation time,
`timeToLive()` returns exactly `max(0, maxAge()−age()) * 1000`
milliseconds — no rounding and no `stale-if-error` or
`stale-while-revalidate` grace periods. -/
theorem timeToLive_amended_eq (p : CachePolicy) (dp : String → Option Int) (now : Int) :
    timeToLive p dp now = specTimeToLiveAmended p dp now := by
  unfold timeToLive specTimeToLiveAmended
  cases maxAge p dp <;> rfl

/-- Structure of `splitCharList`: the first piece is the longest
separator-free prefix, and the remaining pieces split the text after the
first separator. -/
theorem splitCharList_eq (sep : Char) (cs : List Char) :
    splitCharList sep cs =
      cs.takeWhile (fun c => !(c == sep)) ::
        (match cs.dropWhile (fun c => !(c == sep)) with
         | [] => []
         | _ :: r => splitCharList sep r) := by
  induction cs with
  | nil => rfl
  | cons c rest ih =>
    by_cases h : (c == sep) = true
    · simp [splitCharList, h, List.takeWhile_cons, List.dropWhile_cons]
    · simp [splitCharList, h, List.takeWhile_cons, List.dropWhile_cons, ih]

theorem parseCCSegment_eq_spec (cc : CacheControl) (part : String) :
    parseCCSegment cc part =
      (match specSegVal part.data with
       | none => ccSet cc (specSegName part.data) CCVal.flag
       | some v => ccSet cc (specSegName part.data) (CCVal.val v)) := by
  unfold parseCCSegment specSegVal specSegName
  rw [splitCharList_eq]
  cases hd : part.data.dropWhile (fun c => !(c == '=')) with
  | nil => simp
  | cons c r =>
    rw [show (match c :: r with
          | [] => ([] : List (List Char))
          | _ :: r => splitCharList '=' r) = splitCharList '=' r from rfl]
    rw [splitCharList_eq '=' r]
    simp

/-- C8 counterexample: for the segment `a=b=c` the parser keeps only the
first two `=`-separated fields, so the recorded value is `b`, not `b=c`
as the claim states. -/
theorem parseCacheControl_claim_counterexample :
    parseCacheControl (some "a=b=c") = [("a", CCVal.val "b")] ∧
    ¬ parseCacheControl (some "a=b=c") = [("a", CCVal.val "b=c")] := by
  decide

/-- C8 (amended): the directive parser splits the input on commas, maps a
segment with no `=` to the boolean `true`, strips one layer of
surrounding double quotes from a quoted value, and takes as value the
text between the first and the second `=` of a segment — everything from
a second `=` on is discarded (the JS split has limit 2), so for `a=b=c`
the value is `b`. -/
theorem parseCacheControl_eq_spec (header : Option String) :
    parseCacheControl header = specParseCacheControl header := by
  unfold parseCacheControl specParseCacheControl
  cases header with
  | none => rfl
  | some h =>
    have hf : parseCCSegment =
        (fun cc part =>
          match specSegVal part.data with
          | none => ccSet cc (specSegName part.data) CCVal.flag
          | some v => ccSet cc (specSegName part.data) (CCVal.val v)) := by
      funext cc part
      exact parseCCSegment_eq_spec cc part
    rw [hf]

theorem hGet_effResHeaders_vary (res : HttpResponse) (opts : CacheOptions) :
    hGet (effResHeaders res opts) "vary" = hGet res.headers "vary" := by
  unfold effResHeaders
  split
  · cases hf : formatCacheControl
        (ccDel (ccDel (ccDel (ccDel (ccDel
          (parseCacheControl (hGet res.headers "cache-control")) "pre-check")
          "post-check") "no-cache") "no-store") "must-revalidate") with
    | some v =>
      simp only [hf]
      rw [hGet_hDel_ne _ _ _ (by decide), hGet_hDel_ne _ _ _ (by decide),
        hGet_hSet_ne _ _ _ _ (by decide)]
    | none =>
      simp only [hf]
      rw [hGet_hDel_ne _ _ _ (by decide), hGet_hDel_ne _ _ _ (by decide),
        hGet_hDel_ne _ _ _ (by decide)]
  · rfl

/-- C10: the server date used by `date()` and `maxAge()` is the parsed
response `Date` header exactly when its absolute distance from
`responseTime` is strictly below 8 hours; an absent or unparsable header,
or a drift of 8 hours or more, falls back to `responseTime` — so `date()`
never differs from `responseTime` by 8 hours or more. -/
theorem serverDate_drift_bound (p : CachePolicy) (dp : String → Option Int) :
    (hGet p.resHeaders "date" = none → serverDate p dp = p.responseTime) ∧
    (∀ s, hGet p.resHeaders "date" = some s → dp s = none →
      serverDate p dp = p.responseTime) ∧
    (∀ s d, hGet p.resHeaders "date" = some s → dp s = some d →
      8 * 3600 * 1000 ≤ (p.responseTime - d).natAbs →
      serverDate p dp = p.responseTime) ∧
    (∀ s d, hGet p.resHeaders "date" = some s → dp s = some d →
      (p.responseTime - d).natAbs < 8 * 3600 * 1000 →
      serverDate p dp = d) ∧
    (date p dp - p.responseTime).natAbs < 8 * 3600 * 1000 := by
  refine ⟨?_, ?_, ?_, ?_, ?_⟩
  · intro h
    unfold serverDate
    rw [h]
  · intro s hs hd
    simp only [serverDate, hs, hd]
  · intro s d hs hd hge
    simp only [serverDate, hs, hd]
    split
    · omega
    · rfl
  · intro s d hs hd hlt
    simp only [serverDate, hs, hd]
    split
    · rfl
    · omega
  · unfold date
    by_cases ht : p.trustServerDate = true
    · rw [if_pos ht]
      unfold serverDate
      cases hs : hGet p.resHeaders "date" with
      | none => simp
      | some s =>
        dsimp only
        cases hd : dp s with
        | none =>
          dsimp only
          omega
        | some d =>
          dsimp only
          split
          · omega
          · omega
    · rw [if_neg ht]
      simp

/-- C10 witness: at the concrete policy the Date header is trusted (drift
20 s) and the drift bound holds. -/
theorem serverDate_drift_bound_witness :
    serverDate policyC10 dateParseFix = -20000 ∧
    (date policyC10 dateParseFix - policyC10.responseTime).natAbs < 8 * 3600 * 1000 :=
  ⟨(serverDate_drift_bound policyC10 dateParseFix).2.2.2.1
      "Wed, 31 Dec 1969 23:59:40 GMT" (-20000) (by decide) (by decide) (by decide),
    (serverDate_drift_bound policyC10 dateParseFix).2.2.2.2⟩

/-- C9: a policy restored by `fromObject` carries no `trustServerDate`
field (the serialized form has none, and the absent JS field reads as a
falsy `undefined`), so on the restored policy `date()` always returns
`responseTime`, whatever date parser is in effect. -/
theorem fromObject_date_is_responseTime (obj : SerializedPolicy) (h : obj.v = 1) :
    ∃ q, fromObject obj = Except.ok q ∧ q.trustServerDate = false ∧
      q.responseTime = obj.t ∧ ∀ dp, date q dp = q.responseTime := by
  unfold fromObject
  rw [if_neg (by simp [h])]
  exact ⟨_, rfl, rfl, rfl, fun dp => rfl⟩

/-- C9 witness: the original policy reads the Date header (-20000) while
the restored one reads its responseTime (0). -/
theorem fromObject_date_is_responseTime_witness :
    date policyC9 dateParseFix = -20000 ∧
    ∃ q, fromObject (toObject policyC9) = Except.ok q ∧ q.trustServerDate = false ∧
      q.responseTime = (toObject policyC9).t ∧ ∀ dp, date q dp = q.responseTime :=
  ⟨by decide, fromObject_date_is_responseTime (toObject policyC9) (by decide)⟩

/-- C4 (amended): a `toObject`/`fromObject` round trip (the JSON step is
the identity on the serialized record) restores every serialized field,
so `storable()` and `maxAge()` — and with them all decisions that do not
go through `date()` — agree exactly with the original's; `stale()` agrees
whenever the original policy's `date()` equals its `responseTime` (for
example when `trustServerDate` is false or the `Date` header is absent,
invalid or drifted), but can differ otherwise because `trustServerDate`
is not serialized and the restored policy's `date()` is always
`responseTime`. -/
theorem toObject_roundTrip (p : CachePolicy) (dp : String → Option Int) (now : Int) :
    fromObject (toObject p) = Except.ok (restoredPolicy p) ∧
    storable (restoredPolicy p) = storable p ∧
    maxAge (restoredPolicy p) dp = maxAge p dp ∧
    (date p dp = p.responseTime →
      stale (restoredPolicy p) dp now = stale p dp now) := by
  refine ⟨rfl, rfl, rfl, ?_⟩
  intro h
  unfold stale
  have hage : age (restoredPolicy p) dp now = age p dp now := by
    unfold age
    rw [show date (restoredPolicy p) dp = p.responseTime from rfl, h]
    rfl
  rw [show maxAge (restoredPolicy p) dp = maxAge p dp from rfl, hage]

/-- C4 witness: the round-trip agreement instantiated at a concrete
policy, with the date hypothesis discharged by evaluation. -/
theorem toObject_roundTrip_witness :
    fromObject (toObject policyC4w) = Except.ok (restoredPolicy policyC4w) ∧
    storable (restoredPolicy policyC4w) = storable policyC4w ∧
    maxAge (restoredPolicy policyC4w) dateParseFix = maxAge policyC4w dateParseFix ∧
    stale (restoredPolicy policyC4w) dateParseFix 5000 = stale policyC4w dateParseFix 5000 :=
  ⟨(toObject_roundTrip policyC4w dateParseFix 5000).1,
    (toObject_roundTrip policyC4w dateParseFix 5000).2.1,
    (toObject_roundTrip policyC4w dateParseFix 5000).2.2.1,
    (toObject_roundTrip policyC4w dateParseFix 5000).2.2.2 (by decide)⟩

/-- C4 counterexample: the round trip flips `stale()` at the same
evaluation time — `trustServerDate` is not part of the serialized form,
so the restored policy ignores the Date header that made the original
stale. -/
theorem toObject_roundTrip_counterexample :
    stale policyC4 dateParseFix 0 = true ∧
    (fromObject (toObject policyC4)).toOption = some (restoredPolicy policyC4) ∧
    stale (restoredPolicy policyC4) dateParseFix 0 = false := by
  decide

/-- C3 counterexample: even with an active stale-if-error window, an
absent response makes `revalidatedPolicy` throw `Response headers
missing`, and a 500 response yields `matches=false`, `modified=true` and a
brand-new policy — not the unchanged original with `modified=false` as the
claim states.  The code has no stale-if-error handling at all. -/
theorem revalidatedPolicy_claim_counterexample :
    ccGet policyC3.rescc "stale-if-error" = some (CCVal.val "600") ∧
    stale policyC3 dateParseFix 0 = false ∧
    revalidatedPolicy policyC3 simpleGetRequest none 0 =
      Except.error "Response headers missing" ∧
    (revalidatedPolicy policyC3 simpleGetRequest (some responseC3) 0).toOption.map
        (fun r => (r.matched, r.modified, decide (r.policy = policyC3))) =
      some (false, true, false) := by
  exact ⟨by decide, by decide, rfl, by decide⟩

/-- C3 (amended): `revalidatedPolicy` raises `Response headers missing`
when the response is absent; when the response carries a non-304 status
(in particular 500, 502, 503 or 504) it returns `matches=false`,
`modified=true` and a brand-new policy built from the request and that
response with default options — the stored policy's `stale-if-error`
directive is never consulted. -/
theorem revalidatedPolicy_error_status (p : CachePolicy) (request : HttpRequest)
    (response : HttpResponse) (now : Int) (s : Int)
    (hs : response.status = some s) (h304 : s ≠ 304) :
    revalidatedPolicy p request none now = Except.error "Response headers missing" ∧
    revalidatedPolicy p request (some response) now =
      Except.ok { matched := false, modified := true,
                  policy := mkCachePolicy request response defaultCacheOptions now } := by
  constructor
  · rfl
  · have hm : revalMatches p response = false := by
      unfold revalMatches
      rw [hs]
      rw [if_pos (by simp [h304])]
    simp only [revalidatedPolicy, hm]
    simp [hs, h304]

/-- C3 witness: the amended behaviour at the concrete 500-response
scenario. -/
theorem revalidatedPolicy_error_status_witness :
    revalidatedPolicy policyC3 simpleGetRequest none 0 =
      Except.error "Response headers missing" ∧
    revalidatedPolicy policyC3 simpleGetRequest (some responseC3) 0 =
      Except.ok { matched := false, modified := true,
                  policy := mkCachePolicy simpleGetRequest responseC3 defaultCacheOptions 0 } :=
  revalidatedPolicy_error_status policyC3 simpleGetRequest responseC3 0 500
    (by decide) (by decide)

theorem hGet_mergedRevalHeaders (p : CachePolicy) (response : HttpResponse) (k : String) :
    hGet (mergedRevalHeaders p response) k =
      (p.resHeaders.find? (fun kv => kv.fst == k)).map (fun kv =>
        match hGet response.headers kv.fst with
        | some v =>
          if excludedFromRevalidationUpdate.contains kv.fst then kv.snd else v
        | none => kv.snd) := by
  unfold mergedRevalHeaders hGet
  rw [find?_map_keyed]
  cases p.resHeaders.find? (fun kv => kv.fst == k) <;> rfl

theorem stripWeakValidator_of_strong (etag : String)
    (h : isStronglyValidated etag = true) : stripWeakValidator etag = etag := by
  unfold isStronglyValidated at h
  unfold stripWeakValidator
  cases hx : ("W/".data.isPrefixOf (trimLeftList etag.data)) with
  | false => rw [if_neg (by simp [hx])]
  | true => rw [hx] at h; exact absurd h (by decide)

/-- C7: for a stored response with a non-empty strong ETag, a 304
revalidation response carrying the identical ETag matches without
modification, and the new policy's headers take, for every header of the
stored response, the new response's value unless the name is excluded
(content-length, content-encoding, transfer-encoding, content-range) or
the new response lacks the header, in which case the stored value is kept
— in particular the stored Content-Length is always preserved. -/
theorem revalidated_304_strong_etag (p : CachePolicy) (request : HttpRequest)
    (response : HttpResponse) (now : Int) (etag : String)
    (h1 : hGet p.resHeaders "etag" = some etag)
    (h2 : isStronglyValidated etag = true)
    (h3 : etag.isEmpty = false)
    (h4 : response.status = some 304)
    (h5 : hGet response.headers "etag" = some etag) :
    revalidatedPolicy p request (some response) now =
      Except.ok
        { matched := true
          modified := false
          policy := mkCachePolicy request
            { status := some p.status, headers := mergedRevalHeaders p response }
            { shared := some p.isShared
              cacheHeuristic := some p.cacheHeuristic
              immutableMinTimeToLive := some p.immutableMinTtl
              ignoreCargoCult := false
              trustServerDate := some p.trustServerDate } now } ∧
    (∀ k v, hGet p.resHeaders k = some v →
      hGet (mergedRevalHeaders p response) k =
        some (match hGet response.headers k with
              | some nv =>
                if excludedFromRevalidationUpdate.contains k then v else nv
              | none => v)) ∧
    hGet (mergedRevalHeaders p response) "content-length" =
      hGet p.resHeaders "content-length" := by
  have hm : revalMatches p response = true := by
    unfold revalMatches
    rw [if_neg (by simp [h4])]
    rw [if_pos (by simp [sTruthy, h5, h3, h2])]
    simp [sTruthy, h1, h3, h5, stripWeakValidator_of_strong etag h2]
  refine ⟨?_, ?_, ?_⟩
  · simp only [revalidatedPolicy, hm]
    rfl
  · intro k v hv
    rw [hGet_mergedRevalHeaders]
    unfold hGet at hv
    cases hf : p.resHeaders.find? (fun kv => kv.fst == k) with
    | none => rw [hf] at hv; exact absurd hv (by simp)
    | some kv =>
      rw [hf] at hv
      have hk : kv.fst = k := by
        have := List.find?_some hf
        exact beq_iff_eq.mp this
      have hvv : kv.snd = v := by simpa using hv
      simp only [Option.map_some']
      rw [hk, hvv]
  · rw [hGet_mergedRevalHeaders]
    conv_rhs => unfold hGet
    cases hf : p.resHeaders.find? (fun kv => kv.fst == "content-length") with
    | none => rfl
    | some kv =>
      have hk : kv.fst = "content-length" := by
        have := List.find?_some hf
        exact beq_iff_eq.mp this
      simp only [Option.map_some']
      rw [hk]
      cases hcl : hGet response.headers "content-length" with
      | none => rfl
      | some nv =>
        dsimp only
        rw [if_pos (by decide)]

/-- C7 witness: the theorem instantiated at the concrete policy. -/
theorem revalidated_304_strong_etag_witness :
    revalidatedPolicy policyC7 simpleGetRequest (some responseC7) 0 =
      Except.ok
        { matched := true
          modified := false
          policy := mkCachePolicy simpleGetRequest
            { status := some policyC7.status
              headers := mergedRevalHeaders policyC7 responseC7 }
            { shared := some policyC7.isShared
              cacheHeuristic := some policyC7.cacheHeuristic
              immutableMinTimeToLive := some policyC7.immutableMinTtl
              ignoreCargoCult := false
              trustServerDate := some policyC7.trustServerDate } 0 } ∧
    (∀ k v, hGet policyC7.resHeaders k = some v →
      hGet (mergedRevalHeaders policyC7 responseC7) k =
        some (match hGet responseC7.headers k with
              | some nv =>
                if excludedFromRevalidationUpdate.contains k then v else nv
              | none => v)) ∧
    hGet (mergedRevalHeaders policyC7 responseC7) "content-length" =
      hGet policyC7.resHeaders "content-length" :=
  revalidated_304_strong_etag policyC7 simpleGetRequest responseC7 0 "\"v1\""
    (by decide) (by decide) (by decide) (by decide) (by decide)

/-- C5: for every policy constructed from a response whose `Vary` header
is exactly `*`, `maxAge()` is 0, and `satisfiesWithoutRevalidation` is
false for every subsequent request at every time, whatever the request's
headers or directives. -/
theorem vary_star_blocks (req : HttpRequest) (res : HttpResponse)
    (opts : CacheOptions) (now : Int) (dp : String → Option Int)
    (h : hGet res.headers "vary" = some "*") :
    ∀ (req2 : HttpRequest) (now2 : Int),
      maxAge (mkCachePolicy req res opts now) dp = some 0 ∧
      satisfiesWithoutRevalidation (mkCachePolicy req res opts now) req2 dp now2 = false := by
  intro req2 now2
  set p := mkCachePolicy req res opts now with hp
  have hv : hGet p.resHeaders "vary" = some "*" := by
    rw [hp]
    show hGet (effResHeaders res opts) "vary" = some "*"
    rw [hGet_effResHeaders_vary]
    exact h
  have hrh : p.reqHeaders = some req.headers := by
    rw [hp]
    show (if hTruthy res.headers "vary" then some req.headers else none) = some req.headers
    rw [if_pos (by unfold hTruthy; rw [h]; rfl)]
  have hvm : varyMatches p req2 = false := by
    unfold varyMatches
    rw [hrh]
    unfold hTruthy
    rw [hv]
    simp
    decide
  have hrm : requestMatches p req2 false = false := by
    unfold requestMatches
    rw [hvm]
    simp
  constructor
  · unfold maxAge
    by_cases h1 : (!(storable p) || ccTruthy p.rescc "no-cache") = true
    · rw [if_pos h1]
    · rw [if_neg h1]
      by_cases h2 : (p.isShared && hTruthy p.resHeaders "set-cookie" &&
          !(ccTruthy p.rescc "public") && !(ccTruthy p.rescc "immutable")) = true
      · rw [if_pos h2]
      · rw [if_neg h2]
        rw [if_pos (by rw [hv]; rfl)]
  · simp [satisfiesWithoutRevalidation, hrm]

/-- C5 witness: the theorem instantiated at a concrete `Vary: *` policy
and a concrete request. -/
theorem vary_star_blocks_witness :
    maxAge (mkCachePolicy simpleGetRequest responseC5 defaultCacheOptions 0) dateParseFix =
      some 0 ∧
    satisfiesWithoutRevalidation (mkCachePolicy simpleGetRequest responseC5 defaultCacheOptions 0)
      requestC5 dateParseFix 0 = false :=
  vary_star_blocks simpleGetRequest responseC5 defaultCacheOptions 0 dateParseFix
    (by decide) requestC5 0

/-- C6 counterexample: in the claim's scenario (max-age=120, Age 360,
private cache) the staleness excess is 240 s, so a request with
`max-stale=180` is NOT satisfied — 180 is not strictly greater than
240 — contradicting the claim's asserted outcome. -/
theorem maxStale_scenario_counterexample :
    stale policyC6 dateParseFix 0 = true ∧
    age policyC6 dateParseFix 0 = 360 ∧
    maxAge policyC6 dateParseFix = some 120 ∧
    satisfiesWithoutRevalidation policyC6 requestMaxStale180 dateParseFix 0 = false := by
  decide

/-- C6 (amended): a stale policy satisfies a request without revalidation
only when the request carries `max-stale` — as a boolean flag, or with a
numeric value strictly greater than `age() − maxAge()` — and the stored
response lacks `must-revalidate`; in the scenario (max-age=120, Age 360,
private cache) `max-stale=180` is refused (excess 240), a request with
`max-stale=241` is satisfied, and adding `must-revalidate` to the
response makes that same request return false. -/
theorem stale_requires_max_stale (p : CachePolicy) (req : HttpRequest)
    (dp : String → Option Int) (now : Int)
    (h1 : stale p dp now = true)
    (h2 : satisfiesWithoutRevalidation p req dp now = true) :
    (ccTruthy (parseCacheControl (hGet req.headers "cache-control")) "max-stale" = true ∧
     ccTruthy p.rescc "must-revalidate" = false ∧
     (ccGet (parseCacheControl (hGet req.headers "cache-control")) "max-stale" =
        some CCVal.flag ∨
      ∃ n m,
        jsParseIntCC (ccGet (parseCacheControl (hGet req.headers "cache-control"))
          "max-stale") = some n ∧
        maxAge p dp = some m ∧ age p dp now - m < (n : ℚ))) ∧
    satisfiesWithoutRevalidation policyC6 requestMaxStale241 dateParseFix 0 = true ∧
    satisfiesWithoutRevalidation policyC6mr requestMaxStale241 dateParseFix 0 = false := by
  refine ⟨?_, by decide, by decide⟩
  unfold satisfiesWithoutRevalidation at h2
  rw [h1] at h2
  simp only [if_true] at h2
  split at h2
  · exact absurd h2 (by simp)
  split at h2
  · exact absurd h2 (by simp)
  split at h2
  · exact absurd h2 (by simp)
  split at h2
  case isFalse => exact absurd h2 (by simp)
  case isTrue hallow =>
    unfold allowsStale at hallow
    simp only [Bool.and_eq_true, Bool.or_eq_true, Bool.not_eq_true'] at hallow
    obtain ⟨⟨hms, hmr⟩, hnum⟩ := hallow
    refine ⟨hms, hmr, ?_⟩
    rcases hnum with hflag | hnum
    · exact Or.inl (beq_iff_eq.mp hflag)
    · cases hn : jsParseIntCC (ccGet
          (parseCacheControl (hGet req.headers "cache-control")) "max-stale") with
      | none => rw [hn] at hnum; exact absurd hnum (by simp)
      | some n =>
        cases hm : maxAge p dp with
        | none => rw [hn, hm] at hnum; exact absurd hnum (by simp)
        | some m =>
          rw [hn, hm] at hnum
          refine Or.inr ⟨n, m, rfl, rfl, ?_⟩
          exact of_decide_eq_true hnum

/-- C6 witness: the amended necessary conditions extracted at the
concrete scenario with `max-stale=241`. -/
theorem stale_requires_max_stale_witness :
    (ccTruthy (parseCacheControl (hGet requestMaxStale241.headers "cache-control"))
        "max-stale" = true ∧
     ccTruthy policyC6.rescc "must-revalidate" = false ∧
     (ccGet (parseCacheControl (hGet requestMaxStale241.headers "cache-control"))
        "max-stale" = some CCVal.flag ∨
      ∃ n m,
        jsParseIntCC (ccGet (parseCacheControl (hGet requestMaxStale241.headers
          "cache-control")) "max-stale") = some n ∧
        maxAge policyC6 dateParseFix = some m ∧
        age policyC6 dateParseFix 0 - m < (n : ℚ))) ∧
    satisfiesWithoutRevalidation policyC6 requestMaxStale241 dateParseFix 0 = true ∧
    satisfiesWithoutRevalidation policyC6mr requestMaxStale241 dateParseFix 0 = false :=
  stale_requires_max_stale policyC6 requestMaxStale241 dateParseFix 0
    (by decide) (by decide)

end CacheSem

